import Mathlib

/-!
Shallow embedding of src/arc.rs: UmbraArcString, an Umbra-style
atomically-reference-counted string, together with proofs about its
construction, access, equality, ordering, hashing, side effects and
reference-count lifecycle.

Byte strings are modelled as List Nat (the bytes of the Rust str).  The
u32 len field is modelled as a Nat with an explicit % 2^32 where the
source casts usize to u32.  The union UmbraArcExtra is modelled as a sum
type; reading the inactive variant (undefined behaviour in the source) is
given an arbitrary fixed value and is never relied upon below.
-/

namespace UmbraSpec

/-- Source: pub const MAX_INLINE: usize = 12 (src/arc.rs line 11). -/
def MAX_INLINE : Nat := 12

/-- 2^32, the modulus of the u32 len field. -/
def U32_MOD : Nat := 4294967296

/-- The union UmbraArcExtra (src/arc.rs lines 21-24): either the 8 inline
suffix bytes, or the shared pointer, modelled by the full byte content of
the Arc buffer it points to. -/
inductive UmbraArcExtra : Type where
  | data (bytes : List Nat)
  | ptr (buf : List Nat)
deriving DecidableEq, Repr

/-- The struct UmbraArcString (src/arc.rs lines 14-19).  The field pref
models the 4-byte prefix array; len models the u32 length field. -/
structure UmbraArcString : Type where
  len : Nat
  pref : List Nat
  extra : UmbraArcExtra
deriving DecidableEq, Repr

/-- Reading the data field of the union.  Reading it while ptr is the
active variant is undefined behaviour in the source; it is modelled as
eight zero bytes and never reached below for inputs under the u32 bound. -/
def UmbraArcExtra.readData : UmbraArcExtra → List Nat
  | .data b => b
  | .ptr _ => List.replicate 8 0

/-- Reading the ptr field of the union.  Reading it while data is the
active variant is undefined behaviour in the source; it is modelled as an
empty buffer and never reached below. -/
def UmbraArcExtra.readPtrBuf : UmbraArcExtra → List Nat
  | .ptr b => b
  | .data _ => []

/-- Whether the data variant is the one stored (the inline payload). -/
def UmbraArcExtra.isData : UmbraArcExtra → Bool
  | .data _ => true
  | .ptr _ => false

/-- Right-pad a byte list with zeros to n bytes: the zero-initialised
12-byte scratch buffer of the inline construction path. -/
def padTo (n : Nat) (l : List Nat) : List Nat :=
  l ++ List.replicate (n - l.length) 0

/-- UmbraArcString::new (src/arc.rs lines 27-57).  When the byte length is
at most MAX_INLINE the bytes go into a zero-padded 12-byte buffer split
into the 4-byte prefix and the 8 data bytes; otherwise the prefix is the
first 4 bytes and the whole content goes into the shared Arc buffer.  The
usize to u32 cast of the length is the explicit % 2^32. -/
def new (s : List Nat) : UmbraArcString :=
  if s.length ≤ MAX_INLINE then
    { len := s.length % U32_MOD
      pref := (padTo 12 s).take 4
      extra := .data ((padTo 12 s).drop 4) }
  else
    { len := s.length % U32_MOD
      pref := s.take 4
      extra := .ptr s }

/-- UmbraArcString::is_inline (src/arc.rs lines 59-61): derived from the
stored u32 length only. -/
def UmbraArcString.is_inline (a : UmbraArcString) : Bool :=
  decide (a.len ≤ MAX_INLINE)

/-- UmbraArcString::suffix_bytes (src/arc.rs lines 70-82): the full 8
inline data bytes when inline, otherwise bytes 4.. of the len-byte str
rebuilt from the Arc pointer. -/
def UmbraArcString.suffix_bytes (a : UmbraArcString) : List Nat :=
  if a.is_inline then a.extra.readData
  else (a.extra.readPtrBuf.take a.len).drop 4

/-- Deref for UmbraArcString (src/arc.rs lines 111-127): inline reads the
prefix and the data bytes as one 12-byte buffer truncated to len;
heap-backed reads len bytes from the Arc buffer. -/
def UmbraArcString.deref (a : UmbraArcString) : List Nat :=
  if a.is_inline then (a.pref ++ a.extra.readData).take a.len
  else a.extra.readPtrBuf.take a.len

/-- PartialEq of UmbraArcString (src/arc.rs lines 149-165).  The first
test models the single u64 read covering len and prefix together.  NOTE:
in the not-both-inline branch the source compares self.suffix_bytes()
against self.suffix_bytes() (not against other's); the model reproduces
that literally. -/
def beqUmbra (a b : UmbraArcString) : Bool :=
  if ¬ (a.len = b.len ∧ a.pref = b.pref) then false
  else if a.is_inline && b.is_inline then a.extra.readData == b.extra.readData
  else a.suffix_bytes == a.suffix_bytes

/-- Byte-wise lexicographic comparison: the Ord of Rust byte slices
(element-wise, with the shorter side first on exhaustion; on equal-length
arrays it is plain element-wise comparison). -/
def lexCmp : List Nat → List Nat → Ordering
  | [], [] => .eq
  | [], _ :: _ => .lt
  | _ :: _, [] => .gt
  | x :: xs, y :: ys => (compare x y).then (lexCmp xs ys)

/-- Ord for UmbraArcString (src/arc.rs lines 173-190): prefix arrays
first; on equal prefixes, equal if both lengths are at most 4; else if
both inline, the 8 data bytes then the lengths; else the suffix bytes. -/
def cmpUmbra (a b : UmbraArcString) : Ordering :=
  match lexCmp a.pref b.pref with
  | .lt => .lt
  | .eq =>
      if a.len ≤ 4 ∧ b.len ≤ 4 then .eq
      else if a.is_inline && b.is_inline then
        (lexCmp a.extra.readData b.extra.readData).then (compare a.len b.len)
      else lexCmp a.suffix_bytes b.suffix_bytes
  | .gt => .gt

/-- PartialEq of &str for UmbraArcString (src/arc.rs lines 167-171):
content comparison through the deref view. -/
def beqStr (a : UmbraArcString) (t : List Nat) : Bool :=
  a.deref == t

/-- PartialOrd of &str for UmbraArcString (src/arc.rs lines 198-202):
Some of the byte-wise comparison of the deref view with the str. -/
def partialCmpStr (a : UmbraArcString) (t : List Nat) : Option Ordering :=
  some (lexCmp a.deref t)

/-- Hash for UmbraArcString (src/arc.rs lines 141-145) feeds the deref'd
logical content, not the raw record bytes, to the hasher; hashBytes is
the byte sequence the hasher receives, so two instances hash identically
under every hasher exactly when their hashBytes agree. -/
def hashBytes (a : UmbraArcString) : List Nat :=
  a.deref

/-- Observable side effects of construction. -/
inductive Effect : Type where
  | eprintLine (msg : String)
  | eprintExtraBytes (bytes : List Nat)
  | heapAlloc
deriving DecidableEq, Repr

/-- The side effects of UmbraArcString::new in source order (src/arc.rs
lines 27-57): the inline path issues two eprintln calls (lines 34 and 40,
the second formatting the 8 data bytes); the heap path performs the one
Arc allocation (line 54). -/
def newEffects (s : List Nat) : List Effect :=
  if s.length ≤ MAX_INLINE then
    [.eprintLine "inlining!!!", .eprintExtraBytes ((padTo 12 s).drop 4)]
  else [.heapAlloc]

/-- State of one shared Arc buffer: the strong reference count and how
many times the buffer has been freed so far. -/
structure RcState : Type where
  rc : Nat
  frees : Nat
deriving DecidableEq, Repr

/-- The primitive Arc operations used by UmbraArcExtra (src/arc.rs lines
213-267): Arc::from_raw and Arc::into_raw leave the count unchanged,
Arc::clone increments it, and an Arc value going out of scope decrements
it, freeing the buffer when the count reaches zero. -/
inductive ArcPrim : Type where
  | fromRaw
  | intoRaw
  | cloneArc
  | dropArc
deriving DecidableEq, Repr

/-- One primitive Arc operation acting on the buffer state. -/
def primStep (st : RcState) : ArcPrim → RcState
  | .fromRaw => st
  | .intoRaw => st
  | .cloneArc => { st with rc := st.rc + 1 }
  | .dropArc =>
      if st.rc ≤ 1 then { rc := 0, frees := st.frees + 1 }
      else { st with rc := st.rc - 1 }

/-- Run a list of primitive Arc operations from a state. -/
def runPrims (st : RcState) (ops : List ArcPrim) : RcState :=
  ops.foldl primStep st

/-- UmbraArcExtra::inner_ptr_new (src/arc.rs lines 214-220): Arc::from
creates the buffer with count 1 and nothing freed. -/
def innerPtrNewState : RcState :=
  { rc := 1, frees := 0 }

/-- Primitive trace of UmbraArcExtra::inner_ptr_clone (src/arc.rs lines
235-249): from_raw the stored pointer, clone the Arc, into_raw the old
Arc (preventing any transient decrement), into_raw the new Arc. -/
def innerPtrCloneTrace : List ArcPrim :=
  [.fromRaw, .cloneArc, .intoRaw, .intoRaw]

/-- Primitive trace of UmbraArcExtra::inner_ptr_drop (src/arc.rs lines
260-266): from_raw the stored pointer and let the Arc drop. -/
def innerPtrDropTrace : List ArcPrim :=
  [.fromRaw, .dropArc]

/-- Drop for UmbraArcString (src/arc.rs lines 204-211): a no-op for an
inline instance, the inner_ptr_drop trace for a heap-backed one. -/
def dropUmbra (a : UmbraArcString) (st : RcState) : RcState :=
  if a.is_inline then st else runPrims st innerPtrDropTrace

/-- n successive copies of a primitive trace. -/
def tracesN (t : List ArcPrim) : Nat → List ArcPrim
  | 0 => []
  | n + 1 => t ++ tracesN t n

/-! Helper lemmas shared by the claim theorems. -/

/-- The stored u32 length is the input byte length reduced mod 2^32, on
both construction paths. -/
theorem len_new (s : List Nat) : (new s).len = s.length % U32_MOD := by
  unfold new
  split <;> rfl

/-- For inputs under the u32 bound, the deref view of a fresh instance is
the construction input. -/
theorem deref_new (s : List Nat) (h : s.length < U32_MOD) :
    (new s).deref = s := by
  have hmod : s.length % U32_MOD = s.length := Nat.mod_eq_of_lt h
  by_cases hl : s.length ≤ MAX_INLINE
  · have hpad : (padTo 12 s).take 4 ++ (padTo 12 s).drop 4 = padTo 12 s :=
      List.take_append_drop 4 _
    simp only [new, if_pos hl, UmbraArcString.deref, UmbraArcString.is_inline,
      UmbraArcExtra.readData, hmod, hpad]
    rw [if_pos (by exact decide_eq_true hl)]
    unfold padTo
    rw [List.take_append_of_le_length (Nat.le_refl _), List.take_length]
  · simp only [new, if_neg hl, UmbraArcString.deref, UmbraArcString.is_inline,
      UmbraArcExtra.readPtrBuf, hmod]
    rw [if_neg (by simpa using hl), List.take_length]

/-! Claim theorems. -/

/-- C1: the heap-path slow branch of equality compares self's suffix bytes
against self's own suffix bytes, so two heap-backed 13-byte instances that
share the stored length and the 4-byte prefix but differ in every byte
beyond compare equal even though their logical contents differ; equality
therefore does not coincide with content equality. -/
theorem eq_heap_selfcmp_bug :
    beqUmbra (new [97, 98, 99, 100, 1, 1, 1, 1, 1, 1, 1, 1, 1])
        (new [97, 98, 99, 100, 2, 2, 2, 2, 2, 2, 2, 2, 2]) = true
    ∧ (new [97, 98, 99, 100, 1, 1, 1, 1, 1, 1, 1, 1, 1]).deref
        ≠ (new [97, 98, 99, 100, 2, 2, 2, 2, 2, 2, 2, 2, 2]).deref := by
  decide

/-- C2: the total order disagrees with byte-wise lexicographic ordering on
contents containing zero bytes: for the contents "ab" and "ab\x00" the
prefix arrays coincide (both zero-padded) and both lengths are at most 4,
so cmp answers Equal, while byte-wise lexicographic comparison of the
logical contents answers Less. -/
theorem cmp_nul_byte_bug :
    cmpUmbra (new [97, 98]) (new [97, 98, 0]) = Ordering.eq
    ∧ lexCmp [97, 98] [97, 98, 0] = Ordering.lt := by
  decide

/-- C5: hashing is computed over the logical content view, but because of
the self-vs-self slip in the heap equality branch two instances with
different contents can compare equal; their content views differ, so the
byte sequences fed to the hasher differ and hash consistency (a == b
implies hash a = hash b) fails. -/
theorem hash_inconsistency_bug :
    beqUmbra (new [97, 98, 99, 100, 5, 5, 5, 5, 5, 5, 5, 5, 5])
        (new [97, 98, 99, 100, 6, 6, 6, 6, 6, 6, 6, 6, 6]) = true
    ∧ hashBytes (new [97, 98, 99, 100, 5, 5, 5, 5, 5, 5, 5, 5, 5])
        ≠ hashBytes (new [97, 98, 99, 100, 6, 6, 6, 6, 6, 6, 6, 6, 6]) := by
  decide

/-- C9: construction is not side-effect-free: on the inline path (any
input of at most 12 bytes, here "abc") new issues two debug prints to
stderr before returning; no heap allocation happens on this path, but the
claimed absence of observable output fails. -/
theorem construction_print_effects :
    newEffects [97, 98, 99]
      = [Effect.eprintLine "inlining!!!",
         Effect.eprintExtraBytes [0, 0, 0, 0, 0, 0, 0, 0]]
    ∧ Effect.heapAlloc ∉ newEffects [97, 98, 99] := by
  exact ⟨rfl, by decide⟩

/-- C3 (amended): for every input shorter than 2^32 bytes, including the
empty string, the view read from a freshly constructed instance is
byte-identical to the input and the reported length is the input's byte
length.  (Unrestricted, the claim fails at inputs of 2^32 bytes or more,
whose stored u32 length is truncated; see the counterexample.) -/
theorem roundtrip_new (s : List Nat) (h : s.length < U32_MOD) :
    (new s).deref = s ∧ (new s).len = s.length := by
  exact ⟨deref_new s h, by rw [len_new, Nat.mod_eq_of_lt h]⟩

/-- Witness for the round-trip theorem at the concrete input "hi". -/
theorem roundtrip_new_witness :
    (new [104, 105]).deref = [104, 105]
    ∧ (new [104, 105]).len = ([104, 105] : List Nat).length :=
  roundtrip_new [104, 105] (by decide)

/-- C3 counterexample: at the concrete input of 2^32 + 13 repetitions of
the byte 97 the round-trip claim as stated fails: the stored length is
truncated to 13, so the view is the 13-byte truncation of the input and
the reported length is 13. -/
theorem roundtrip_overflow_counterexample :
    ¬ ((new (List.replicate (U32_MOD + 13) 97)).deref
          = List.replicate (U32_MOD + 13) 97
        ∧ (new (List.replicate (U32_MOD + 13) 97)).len
          = (List.replicate (U32_MOD + 13) 97).length) := by
  rintro ⟨-, h2⟩
  rw [len_new] at h2
  simp only [List.length_replicate, Nat.add_mod_left] at h2
  rw [Nat.mod_eq_of_lt (by decide)] at h2
  have : (13 : Nat) ≠ U32_MOD + 13 := by decide
  exact this h2

/-- On the heap construction path the stored payload is the shared
pointer to the full input. -/
theorem new_heap_extra (s : List Nat) (h : ¬ s.length ≤ MAX_INLINE) :
    (new s).extra = UmbraArcExtra.ptr s := by
  simp only [new, if_neg h]

/-- is_inline tests the stored (truncated) u32 length against
MAX_INLINE. -/
theorem is_inline_new (s : List Nat) :
    (new s).is_inline = decide (s.length % U32_MOD ≤ MAX_INLINE) := by
  rw [UmbraArcString.is_inline, len_new]

/-- On the heap construction path, when the stored (truncated) length is
still above MAX_INLINE, deref reads the stored length's worth of bytes
from the shared buffer. -/
theorem deref_new_heap (s : List Nat) (h12 : ¬ s.length ≤ MAX_INLINE)
    (h13 : ¬ s.length % U32_MOD ≤ MAX_INLINE) :
    (new s).deref = s.take (s.length % U32_MOD) := by
  simp only [new, if_neg h12, UmbraArcString.deref, UmbraArcString.is_inline,
    UmbraArcExtra.readPtrBuf]
  rw [if_neg (by simpa using h13)]

/-- C7 (amended): for every input shorter than 2^32 bytes, the payload is
the inline variant exactly when the length is at most 12, is_inline
reports exactly that derived discriminant, and the instance round-trips.
(Unrestricted, the claim fails at inputs of 2^32 + 5 bytes, where the
payload is the shared pointer but the truncated stored length makes
is_inline report true; see the counterexample.) -/
theorem boundary_inline (s : List Nat) (h : s.length < U32_MOD) :
    ((new s).extra.isData = true ↔ s.length ≤ MAX_INLINE)
    ∧ (new s).is_inline = (new s).extra.isData
    ∧ (new s).deref = s := by
  have hmod : s.length % U32_MOD = s.length := Nat.mod_eq_of_lt h
  refine ⟨?_, ?_, deref_new s h⟩ <;>
    by_cases hl : s.length ≤ MAX_INLINE <;>
      simp [new, hl, UmbraArcString.is_inline, UmbraArcExtra.isData, hmod]

/-- Witness for the boundary theorem at the concrete 13-byte input. -/
theorem boundary_inline_witness :
    ((new (List.replicate 13 97)).extra.isData = true
        ↔ (List.replicate 13 97).length ≤ MAX_INLINE)
    ∧ (new (List.replicate 13 97)).is_inline
        = (new (List.replicate 13 97)).extra.isData
    ∧ (new (List.replicate 13 97)).deref = List.replicate 13 97 :=
  boundary_inline (List.replicate 13 97) (by decide)

/-- C7 counterexample: at the concrete input of 2^32 + 5 repetitions of
the byte 97, new takes the heap path (the payload is the shared-pointer
variant) yet the stored length is truncated to 5, so is_inline reports
true: the discriminant reported by is_inline disagrees with the payload
variant. -/
theorem boundary_overflow_counterexample :
    (new (List.replicate (U32_MOD + 5) 97)).is_inline = true
    ∧ (new (List.replicate (U32_MOD + 5) 97)).extra.isData = false := by
  constructor
  · rw [is_inline_new, List.length_replicate, Nat.add_mod_left]
    decide
  · rw [new_heap_extra]
    · rfl
    · rw [List.length_replicate]
      decide

/-- C8: for any construction input longer than 2^32 - 1 bytes, new stores
the input's byte length silently truncated to its low 32 bits (so the
stored length differs from the true length) and signals no error: new is
total and always returns an instance. -/
theorem overflow_truncates (s : List Nat) (h : U32_MOD - 1 < s.length) :
    (new s).len = s.length % U32_MOD ∧ (new s).len ≠ s.length := by
  refine ⟨len_new s, ?_⟩
  rw [len_new]
  have h1 : s.length % U32_MOD < U32_MOD := Nat.mod_lt _ (by decide)
  omega

/-- Witness for the truncation theorem at a concrete 2^32 + 1 byte input. -/
theorem overflow_truncates_witness :
    (new (List.replicate (U32_MOD + 1) 0)).len
        = (List.replicate (U32_MOD + 1) 0).length % U32_MOD
    ∧ (new (List.replicate (U32_MOD + 1) 0)).len
        ≠ (List.replicate (U32_MOD + 1) 0).length :=
  overflow_truncates (List.replicate (U32_MOD + 1) 0)
    (by rw [List.length_replicate]; decide)

/-- C10 (amended): for inputs shorter than 2^32 bytes, instance-to-str
equality and ordering are computed over the logical content and agree
with plain string semantics: new(s) == &t holds iff s = t, and
partial_cmp returns some of the byte-wise lexicographic comparison of s
and t.  (Unrestricted, the claim fails at a 2^32 + 13 byte input, whose
deref view is truncated; see the counterexample.) -/
theorem str_cmp_content (s t : List Nat) (h : s.length < U32_MOD) :
    (beqStr (new s) t = true ↔ s = t)
    ∧ partialCmpStr (new s) t = some (lexCmp s t) := by
  have hd := deref_new s h
  refine ⟨?_, ?_⟩
  · simp [beqStr, hd]
  · simp [partialCmpStr, hd]

/-- Witness for the instance-to-str comparison theorem at concrete
one-byte inputs. -/
theorem str_cmp_content_witness :
    (beqStr (new [104]) [105] = true ↔ [104] = [105])
    ∧ partialCmpStr (new [104]) [105] = some (lexCmp [104] [105]) :=
  str_cmp_content [104] [105] (by decide)

/-- C10 counterexample: with s and t both the 2^32 + 13 byte repetition
of the byte 97, new(s) == &t is false although s = t, because the deref
view of new(s) is the 13-byte truncation; the unrestricted claim fails. -/
theorem str_eq_overflow_counterexample :
    ¬ (beqStr (new (List.replicate (U32_MOD + 13) 97))
          (List.replicate (U32_MOD + 13) 97) = true
        ↔ List.replicate (U32_MOD + 13) 97
          = (List.replicate (U32_MOD + 13) 97 : List Nat)) := by
  intro hiff
  have h := hiff.mpr rfl
  have hlen13 : (List.replicate (U32_MOD + 13) 97).length = U32_MOD + 13 := by
    simp
  have hd : (new (List.replicate (U32_MOD + 13) 97)).deref
      = List.replicate 13 97 := by
    rw [deref_new_heap (List.replicate (U32_MOD + 13) 97)
        (by rw [hlen13]; decide) (by rw [hlen13, Nat.add_mod_left]; decide)]
    rw [hlen13, Nat.add_mod_left,
      Nat.mod_eq_of_lt (by decide : (13 : Nat) < U32_MOD), List.take_replicate]
    rw [Nat.min_eq_left (by decide : (13 : Nat) ≤ U32_MOD + 13)]
  rw [beqStr, hd, beq_iff_eq] at h
  have hl := congrArg List.length h
  simp only [List.length_replicate] at hl
  exact absurd hl (by decide)

/-- Characterisation of the source's equality: the len/prefix fast path
must pass, and when the instances are inline the 8 data bytes must agree;
when they are not inline the slow branch compares self against self and
therefore always accepts. -/
theorem beqUmbra_iff (a b : UmbraArcString) :
    beqUmbra a b = true ↔
      (a.len = b.len ∧ a.pref = b.pref
        ∧ (a.len ≤ MAX_INLINE → a.extra.readData = b.extra.readData)) := by
  unfold beqUmbra
  by_cases h1 : a.len = b.len ∧ a.pref = b.pref
  · rw [if_neg (not_not_intro h1)]
    by_cases h2 : a.len ≤ MAX_INLINE
    · have hb : (a.is_inline && b.is_inline) = true := by
        simp only [UmbraArcString.is_inline, Bool.and_eq_true, decide_eq_true_iff]
        exact ⟨h2, h1.1 ▸ h2⟩
      rw [if_pos hb]
      constructor
      · intro h
        exact ⟨h1.1, h1.2, fun _ => beq_iff_eq.mp h⟩
      · rintro ⟨-, -, h3⟩
        exact beq_iff_eq.mpr (h3 h2)
    · have hb : ¬ ((a.is_inline && b.is_inline) = true) := by
        simp only [UmbraArcString.is_inline, Bool.and_eq_true, decide_eq_true_iff]
        exact fun hc => h2 hc.1
      rw [if_neg hb]
      constructor
      · intro _
        exact ⟨h1.1, h1.2, fun hle => absurd hle h2⟩
      · intro _
        exact beq_self_eq_true _
  · rw [if_pos h1]
    constructor
    · intro h
      exact (Bool.false_ne_true h).elim
    · rintro ⟨hl, hp, -⟩
      exact absurd ⟨hl, hp⟩ h1

/-- C6: instance-to-instance equality is an equivalence relation on
constructed instances: reflexive, symmetric and transitive. -/
theorem eq_equivalence (s1 s2 s3 : List Nat) :
    beqUmbra (new s1) (new s1) = true
    ∧ (beqUmbra (new s1) (new s2) = true → beqUmbra (new s2) (new s1) = true)
    ∧ (beqUmbra (new s1) (new s2) = true → beqUmbra (new s2) (new s3) = true →
        beqUmbra (new s1) (new s3) = true) := by
  refine ⟨?_, ?_, ?_⟩
  · exact (beqUmbra_iff _ _).mpr ⟨rfl, rfl, fun _ => rfl⟩
  · intro h
    obtain ⟨h1, h2, h3⟩ := (beqUmbra_iff _ _).mp h
    exact (beqUmbra_iff _ _).mpr
      ⟨h1.symm, h2.symm, fun hle => (h3 (h1 ▸ hle)).symm⟩
  · intro h g
    obtain ⟨h1, h2, h3⟩ := (beqUmbra_iff _ _).mp h
    obtain ⟨g1, g2, g3⟩ := (beqUmbra_iff _ _).mp g
    exact (beqUmbra_iff _ _).mpr
      ⟨h1.trans g1, h2.trans g2,
        fun hle => (h3 hle).trans (g3 (h1 ▸ hle))⟩

/-- Witness for the equivalence theorem: transitivity applied at three
equal concrete instances, hypotheses evaluated concretely. -/
theorem eq_equivalence_witness :
    beqUmbra (new [104, 105]) (new [104, 105]) = true :=
  (eq_equivalence [104, 105] [104, 105] [104, 105]).2.2 (by decide) (by decide)

/-- Running a concatenation of primitive traces runs them in sequence. -/
theorem runPrims_append (st : RcState) (l m : List ArcPrim) :
    runPrims st (l ++ m) = runPrims (runPrims st l) m := by
  simp [runPrims]

/-- inner_ptr_clone increments the reference count by exactly one and
frees nothing. -/
theorem clone_increments (r f : Nat) :
    runPrims ⟨r, f⟩ innerPtrCloneTrace = ⟨r + 1, f⟩ := rfl

/-- n inner_ptr_clone calls raise the count from r to r + n. -/
theorem clones_run (r f n : Nat) :
    runPrims ⟨r, f⟩ (tracesN innerPtrCloneTrace n) = ⟨r + n, f⟩ := by
  induction n generalizing r with
  | zero => rfl
  | succ n ih =>
      rw [tracesN, runPrims_append, clone_increments, ih (r + 1)]
      congr 1
      omega

/-- m + 1 inner_ptr_drop calls from count m + 1 reach count zero and
free the buffer exactly once, at the last drop. -/
theorem drops_run (m f : Nat) :
    runPrims ⟨m + 1, f⟩ (tracesN innerPtrDropTrace (m + 1)) = ⟨0, f + 1⟩ := by
  induction m with
  | zero => rfl
  | succ k ih =>
      rw [tracesN, runPrims_append]
      have h1 : runPrims ⟨k + 2, f⟩ innerPtrDropTrace = ⟨k + 1, f⟩ := by
        simp only [runPrims, innerPtrDropTrace, List.foldl, primStep]
        rw [if_neg (by omega)]
        congr 1
      rw [h1, ih]

/-- C4: reference-count soundness.  First conjunct: from a fresh
heap-backed instance (count 1), n inner_ptr_clone calls followed by n + 1
inner_ptr_drop calls leave count 0 with the buffer freed exactly once,
and every primitive before the final drop acts on a live buffer (count
positive, nothing freed).  Second: each clone is a net increment of
exactly one with nothing freed.  Third: no prefix of the clone trace ever
takes the count below its starting value (no transient decrement).
Fourth: dropping an inline instance is a no-op on the buffer state. -/
theorem refcount_sound (n : Nat) :
    runPrims innerPtrNewState
        (tracesN innerPtrCloneTrace n ++ tracesN innerPtrDropTrace (n + 1))
      = ⟨0, 1⟩
    ∧ (∀ st : RcState, runPrims st innerPtrCloneTrace = ⟨st.rc + 1, st.frees⟩)
    ∧ (∀ st : RcState, ∀ k : Nat,
        st.rc ≤ (runPrims st (innerPtrCloneTrace.take k)).rc)
    ∧ (∀ a : UmbraArcString, ∀ st : RcState,
        a.is_inline = true → dropUmbra a st = st) := by
  refine ⟨?_, fun st => rfl, ?_, ?_⟩
  · rw [runPrims_append]
    have h1 : runPrims innerPtrNewState (tracesN innerPtrCloneTrace n)
        = ⟨n + 1, 0⟩ := by
      have h2 := clones_run 1 0 n
      rw [show innerPtrNewState = (⟨1, 0⟩ : RcState) from rfl, h2]
      congr 1
      omega
    rw [h1]
    exact drops_run n 0
  · intro st k
    match k with
    | 0 => exact Nat.le_refl _
    | 1 => exact Nat.le_refl _
    | 2 => exact Nat.le_succ _
    | 3 => exact Nat.le_succ _
    | m + 4 =>
        rw [List.take_of_length_le (by simp [innerPtrCloneTrace])]
        exact Nat.le_succ _
  · intro a st h
    rw [dropUmbra, if_pos h]

/-- Witness for the reference-count theorem: two clones and three drops
of a concrete heap-backed buffer, and a no-op drop of a concrete inline
instance. -/
theorem refcount_sound_witness :
    runPrims innerPtrNewState
        (tracesN innerPtrCloneTrace 2 ++ tracesN innerPtrDropTrace 3) = ⟨0, 1⟩
    ∧ dropUmbra (new [104]) ⟨5, 0⟩ = ⟨5, 0⟩ :=
  ⟨(refcount_sound 2).1,
    (refcount_sound 2).2.2.2 (new [104]) ⟨5, 0⟩ (by decide)⟩

end UmbraSpec

